import Mathlib

/-!
Verification of the TL binding code generator
(`src/TLGenerator/tl_generator.py`, class `TLGenerator`).

The generator consumes parsed schema definitions (`TLObject` with a list of
`TLArg`) and emits one C++ class per definition: a field list, a constructor,
and paired `write`/`read` stream routines, wrapped in layer/namespace blocks.

The embedding below mirrors the generator:
* the data model (`TLArg`, `TLObject`) follows the attributes the generator
  reads from the parser's objects;
* `filteredArgs` is the argument filter of `_write_source_code`
  (lines 104-108);
* `writeArgWords` / `serializeWords` are the wire-level semantics of the
  generated `write` body (lines 127-139), one `Nat` word per stream insertion;
* `readFields` is the semantics of the generated `read` body
  (lines 141-155); the vector branch of the generated reader is ill-formed
  C++ (its loop condition names an undeclared variable `i` and its body is a
  TODO comment), so that branch has no runtime semantics and maps to `none`;
* `readBodyLines` is the literal text the generator emits for `read`
  (braces written as escapes);
* `seqObjs` / `seqGroups` model the namespace/layer sequencer of
  `_generate_source` (lines 72-88) as a list of block events;
* `function_abstracts` / `object_abstracts` / `emittedAbstracts` model the
  abstract-marker collection of `generate_tlobjects` (lines 37-53) and its
  sorted emission (lines 67-70).
-/

/-- An argument of a schema definition, with the attributes
`_write_source_code` reads from the parser's `TLArg` objects. -/
structure TLArg where
  name : String
  argType : String
  is_vector : Bool
  use_vector_id : Bool
  is_flag : Bool
  flag_indicator : Bool
  generic_definition : Bool
deriving DecidableEq

/-- A schema definition, with the attributes the generator reads from the
parser's `TLObject` objects.  `result` holds the sanitized abstract result
(line 43 applies `TLArg.get_sanitized_result` before any grouping), and
`namespaceName` is the python attribute `namespace` (empty string when the
definition is unqualified). -/
structure TLObject where
  name : String
  namespaceName : String
  id : Nat
  layer : Nat
  is_function : Bool
  result : String
  args : List TLArg
deriving DecidableEq

/-- Modelled from the spec: `TLObject.sorted_args` lives in the absent
`parser` module; section 4.3 of the specification requires its output to
place every flagged argument after every non-flagged one while keeping the
relative order within each class (a stable partition by `is_flag`). -/
def TLObject.sorted_args (t : TLObject) : List TLArg :=
  t.args.filter (fun a => !a.is_flag) ++ t.args.filter (fun a => a.is_flag)

/-- The argument filter of `_write_source_code` (lines 104-108): the emitted
class fields are the sorted arguments minus flag indicators and generic
definitions, in order. -/
def filteredArgs (t : TLObject) : List TLArg :=
  t.sorted_args.filter (fun a => !a.flag_indicator && !a.generic_definition)

/-- The constructor parameter list (lines 113-115): one parameter per field,
paired with whether the parameter received the implicit absent default
(the `= \x7b\x7d` initializer), which the code attaches exactly to `is_flag`
arguments. -/
def ctorParams (t : TLObject) : List (TLArg × Bool) :=
  (filteredArgs t).map (fun a => (a, a.is_flag))

/-- The reserved boxed-vector constructor tag (line 132). -/
def vectorTag : Nat := 0x1cb5c415

/-- A runtime value for one field of a generated class: a scalar stream word,
or a vector of element words. -/
inductive ArgVal where
  | scalar (w : Nat)
  | vec (ws : List Nat)
deriving DecidableEq

/-- Wire words produced by the generated `write` body for one field
(lines 129-138): a vector field writes the boxed-vector tag when
`use_vector_id`, then the element count cast to `uint32_t`, then each element
in order; a scalar field writes its single word.  A value whose shape does
not match the field's kind corresponds to ill-typed generated C++ and
produces nothing. -/
def writeArgWords (a : TLArg) (v : ArgVal) : List Nat :=
  match a.is_vector, v with
  | true, ArgVal.vec ws =>
      (if a.use_vector_id then [vectorTag] else []) ++ [ws.length % 2 ^ 32] ++ ws
  | false, ArgVal.scalar w => [w]
  | _, _ => []

/-- Wire words produced by the whole generated `write` routine
(lines 127-139): the class's 4-byte constructor tag first (line 128), then
the words of each field in field order. -/
def serializeWords (t : TLObject) (vals : List ArgVal) : List Nat :=
  (t.id % 2 ^ 32) :: (List.zipWith writeArgWords (filteredArgs t) vals).flatten

/-- Runtime semantics of the generated `read` body (lines 141-155): each
scalar field consumes exactly one stream word (`stream >> field;`); the
vector branch of the generated reader is ill-formed C++ (its loop condition
compares the undeclared name `i` against `_len`, and its body is only a TODO
comment), so a vector field has no runtime semantics and yields `none`.
Returns the field values read and the unread remainder of the stream. -/
def readFields : List TLArg → List Nat → Option (List Nat × List Nat)
  | [], ws => some ([], ws)
  | a :: rest, ws =>
      if a.is_vector then none
      else
        match ws with
        | [] => none
        | w :: ws' =>
            match readFields rest ws' with
            | some (vs, r) => some (w :: vs, r)
            | none => none

/-- The literal lines the generator emits for the `read` method
(lines 141-155), braces escaped.  The vector branch discards the boxed
vector tag into `_i` when `use_vector_id`, reads the count into `_len`, and
then emits the defective loop header comparing `i` (undeclared) with `_len`
around a body that only contains a TODO comment. -/
def readBodyLines (t : TLObject) : List String :=
  ["void read(Stream &stream) override \x7b"] ++
  (if (filteredArgs t).any (fun a => a.is_vector) then ["uint32_t _len, _i;"] else []) ++
  (filteredArgs t).flatMap (fun a =>
    if a.is_vector then
      (if a.use_vector_id then ["stream >> _i;"] else []) ++
      ["stream >> _len;",
       "for (_i = 0; i != _len; ++_i) \x7b",
       "/* TODO Actually read the TLObject */",
       "\x7d"]
    else ["stream >> " ++ a.name ++ ";"]) ++
  ["\x7d"]

/-- Executable lexicographic comparison of character lists by code point,
the comparison python's `sorted` applies to strings. -/
def charsLt : List Char → List Char → Bool
  | [], [] => false
  | [], _ :: _ => true
  | _ :: _, [] => false
  | a :: as, b :: bs =>
      if a.toNat < b.toNat then true
      else if b.toNat < a.toNat then false
      else charsLt as bs

/-- Executable lexicographic strict order on strings. -/
def strLt (a b : String) : Bool := charsLt a.data b.data

/-- Stable insertion of `x` into a list ordered by the string key `k`,
placing `x` before the first element whose key is not below `x`'s. -/
def insertByKey (k : α → String) (x : α) : List α → List α
  | [] => [x]
  | u :: us => if strLt (k u) (k x) then u :: insertByKey k x us else x :: u :: us

/-- Stable insertion sort by a string key; models python's `sorted` with a
string `key` function. -/
def sortByKey (k : α → String) : List α → List α
  | [] => []
  | x :: xs => insertByKey k x (sortByKey k xs)

/-- Line 76's `sorted(tlobjects, key=lambda x: x.name)`. -/
def sortByName (ts : List TLObject) : List TLObject :=
  sortByKey (fun t => t.name) ts

/-- One builder event of the sequencer region of `_generate_source`:
opening a layer block (line 78), opening a namespace block (line 81),
closing a block (`end_block`, lines 87-88), or emitting one definition's
class (line 84, internally brace-balanced). -/
inductive Event where
  | openLayer (layer : Nat)
  | openNs (ns : String)
  | close
  | decl (t : TLObject)
deriving DecidableEq

/-- Lines 77-79: on a layer change, open a layer block and update
`lastlayer`; otherwise emit nothing. -/
def stepLayer (lastlayer : Nat) (t : TLObject) : List Event × Nat :=
  if lastlayer ≠ t.layer then ([Event.openLayer t.layer], t.layer) else ([], lastlayer)

/-- Lines 80-82: while `ns` is truthy, open the namespace block and clear
`ns` (python sets it to `None`; both `None` and the empty namespace are
falsy, modelled as `""`). -/
def stepNs (ns : String) : List Event × String :=
  if ns ≠ "" then ([Event.openNs ns], "") else ([], ns)

/-- The inner loop of the sequencer (lines 76-84) over the name-sorted
definitions of one namespace entry: carries python's `lastlayer` and the
loop-local `ns` variable, and returns the emitted events together with the
final values of both variables. -/
def seqObjs (lastlayer : Nat) (ns : String) : List TLObject → List Event × Nat × String
  | [] => ([], lastlayer, ns)
  | t :: rest =>
      let res := seqObjs (stepLayer lastlayer t).2 (stepNs ns).2 rest
      ((stepLayer lastlayer t).1 ++ (stepNs ns).1 ++ Event.decl t :: res.1, res.2)

/-- The outer loop of the sequencer (lines 72-88): iterates the namespace
entries in discovery order, sorts each entry's definitions by name, runs the
inner loop, and emits `end_block` only when the (already cleared) `ns`
variable is still truthy (line 86-87).  `lastlayer` persists across
namespace entries, exactly as in the source. -/
def seqGroups (lastlayer : Nat) : List (String × List TLObject) → List Event
  | [] => []
  | (ns, objs) :: rest =>
      let r := seqObjs lastlayer ns (sortByName objs)
      r.1 ++ (if r.2.2 ≠ "" then [Event.close] else []) ++ seqGroups r.2.1 rest

/-- The block events of the whole `_generate_source` body (lines 65-88):
`namespace TL {` and `namespace Type {` are opened, the abstract marker
lines are brace-balanced single lines, `end_block` closes the `Type` block
(line 70), then the sequencer runs from `lastlayer = 0` (line 72), then the
single trailing `end_block` (line 88). -/
def generateSourceEvents (groups : List (String × List TLObject)) : List Event :=
  [Event.openNs "TL", Event.openNs "Type", Event.close] ++
    seqGroups 0 groups ++ [Event.close]

/-- Number of block-opening events. -/
def openCount (evs : List Event) : Nat :=
  evs.countP (fun e =>
    match e with
    | Event.openLayer _ => true
    | Event.openNs _ => true
    | _ => false)

/-- Number of block-closing events. -/
def closeCount (evs : List Event) : Nat :=
  evs.countP (fun e =>
    match e with
    | Event.close => true
    | _ => false)

/-- Number of openings of the namespace block named `s`. -/
def nsOpenCount (s : String) (evs : List Event) : Nat :=
  evs.countP (fun e => decide (e = Event.openNs s))

/-- The definitions emitted, in emission order. -/
def declsOf (evs : List Event) : List TLObject :=
  evs.filterMap (fun e =>
    match e with
    | Event.decl t => some t
    | _ => none)

/-- The distinct abstract result types of the function partition
(lines 39, 45-47: a python `set` filled in iteration order, modelled as the
deduplicated list of results). -/
def function_abstracts (ts : List TLObject) : List String :=
  ((ts.filter (fun t => t.is_function)).map (fun t => t.result)).dedup

/-- The distinct abstract result types of the type partition
(lines 40, 48-50). -/
def object_abstracts (ts : List TLObject) : List String :=
  ((ts.filter (fun t => !t.is_function)).map (fun t => t.result)).dedup

/-- Line 68's `for a in sorted(abstracts)`: the abstract markers are
emitted in sorted order. -/
def emittedAbstracts (abstracts : List String) : List String :=
  sortByKey (fun s => s) abstracts

/-- The flag-last ordering invariant on an argument list: once a flagged
argument appears, every later argument is flagged. -/
def FlagsLast (l : List TLArg) : Prop :=
  l.Pairwise (fun a b => a.is_flag = true → b.is_flag = true)

instance (l : List TLArg) : Decidable (FlagsLast l) :=
  inferInstanceAs (Decidable (l.Pairwise _))

/-! ### Order facts about the executable lexicographic comparison -/

theorem charsLt_iff : ∀ as bs : List Char, charsLt as bs = true ↔ as < bs
  | [], [] =>
      iff_of_false (by simp [charsLt]) (fun h => by cases h)
  | [], b :: bs =>
      iff_of_true (by simp [charsLt]) (List.nil_lt_cons b bs)
  | _ :: _, [] =>
      iff_of_false (by simp [charsLt]) (fun h => by cases h)
  | a :: as, b :: bs => by
      by_cases h1 : a.toNat < b.toNat
      · exact iff_of_true (by simp [charsLt, h1]) (List.Lex.rel h1)
      · by_cases h2 : b.toNat < a.toNat
        · refine iff_of_false (by simp [charsLt, h1, h2]) ?_
          intro h
          cases h with
          | cons h' => exact Nat.lt_irrefl _ h2
          | rel h' => exact h1 h'
        · have hab : a = b :=
            le_antisymm (show a.toNat ≤ b.toNat from Nat.le_of_not_lt h2)
              (show b.toNat ≤ a.toNat from Nat.le_of_not_lt h1)
          subst hab
          have hstep : charsLt (a :: as) (a :: bs) = charsLt as bs := by
            simp [charsLt]
          rw [hstep]
          exact (charsLt_iff as bs).trans List.Lex.cons_iff.symm

theorem strLt_iff (a b : String) : strLt a b = true ↔ a < b := by
  rw [String.lt_iff_toList_lt]
  exact charsLt_iff a.data b.data

theorem strLt_eq_false_iff (a b : String) : strLt a b = false ↔ b ≤ a := by
  rw [← not_lt, ← strLt_iff, Bool.not_eq_true, Bool.eq_false_iff, ne_eq, Bool.not_eq_true]

/-! ### The key-based insertion sort models python's `sorted` -/

theorem insertByKey_perm (k : α → String) (x : α) :
    ∀ l : List α, List.Perm (insertByKey k x l) (x :: l)
  | [] => List.Perm.refl _
  | u :: us => by
      simp only [insertByKey]
      split
      · exact ((insertByKey_perm k x us).cons u).trans (List.Perm.swap x u us)
      · exact List.Perm.refl _

theorem sortByKey_perm (k : α → String) : ∀ l : List α, List.Perm (sortByKey k l) l
  | [] => List.Perm.refl _
  | x :: xs => (insertByKey_perm k x _).trans ((sortByKey_perm k xs).cons x)

/-- Sortedness by a string key: every element's key is below every later
element's key. -/
def KeySorted (k : α → String) (l : List α) : Prop :=
  l.Pairwise (fun a b => k a ≤ k b)

theorem insertByKey_sorted (k : α → String) (x : α) :
    ∀ l : List α, KeySorted k l → KeySorted k (insertByKey k x l)
  | [], _ => List.pairwise_cons.mpr ⟨by simp, List.Pairwise.nil⟩
  | u :: us, h => by
      rcases List.pairwise_cons.mp h with ⟨hu, hus⟩
      simp only [insertByKey]
      split
      · next hlt =>
        refine List.pairwise_cons.mpr ⟨?_, insertByKey_sorted k x us hus⟩
        intro w hw
        rcases List.mem_cons.mp ((insertByKey_perm k x us).mem_iff.mp hw) with h' | hw'
        · subst h'
          exact le_of_lt ((strLt_iff _ _).mp hlt)
        · exact hu w hw'
      · next hnlt =>
        have hxu : k x ≤ k u :=
          (strLt_eq_false_iff _ _).mp (Bool.eq_false_iff.mpr hnlt)
        refine List.pairwise_cons.mpr ⟨?_, h⟩
        intro w hw
        rcases List.mem_cons.mp hw with h' | hw'
        · subst h'
          exact hxu
        · exact le_trans hxu (hu w hw')

theorem sortByKey_sorted (k : α → String) : ∀ l : List α, KeySorted k (sortByKey k l)
  | [] => List.Pairwise.nil
  | x :: xs => insertByKey_sorted k x _ (sortByKey_sorted k xs)

/-! ### Helper lemmas about the sequencer's emitted events -/

theorem declsOf_append (a b : List Event) :
    declsOf (a ++ b) = declsOf a ++ declsOf b :=
  List.filterMap_append _ _ _

theorem declsOf_stepLayer (ll : Nat) (t : TLObject) :
    declsOf (stepLayer ll t).1 = [] := by
  simp only [stepLayer]
  split <;> rfl

theorem declsOf_stepNs (ns : String) : declsOf (stepNs ns).1 = [] := by
  simp only [stepNs]
  split <;> rfl

theorem declsOf_seqObjs : ∀ (objs : List TLObject) (ll : Nat) (ns : String),
    declsOf (seqObjs ll ns objs).1 = objs
  | [], _, _ => rfl
  | t :: rest, ll, ns => by
      simp only [seqObjs]
      rw [declsOf_append, declsOf_append, declsOf_stepLayer, declsOf_stepNs]
      show [] ++ ([] ++ (t :: declsOf (seqObjs _ _ rest).1)) = t :: rest
      rw [declsOf_seqObjs rest]
      simp

theorem declsOf_seqGroups : ∀ (groups : List (String × List TLObject)) (ll : Nat),
    declsOf (seqGroups ll groups) = groups.flatMap (fun g => sortByName g.2)
  | [], _ => rfl
  | (ns, objs) :: rest, ll => by
      simp only [seqGroups]
      rw [declsOf_append, declsOf_append, declsOf_seqObjs]
      have hclose :
          declsOf (if (seqObjs ll ns (sortByName objs)).2.2 ≠ "" then [Event.close] else []) =
            [] := by
        split <;> rfl
      rw [hclose, declsOf_seqGroups rest]
      simp

/-! ### Helper lemmas about scalar-only serialization -/

theorem readFields_scalar : ∀ (args : List TLArg) (ws rest : List Nat),
    (∀ a ∈ args, a.is_vector = false) → ws.length = args.length →
    readFields args (ws ++ rest) = some (ws, rest)
  | [], ws, rest, _, hlen => by
      have hnil : ws = [] := List.eq_nil_of_length_eq_zero (by simpa using hlen)
      subst hnil
      rfl
  | a :: args, ws, rest, hsc, hlen => by
      cases ws with
      | nil => simp at hlen
      | cons w ws' =>
          have ha : a.is_vector = false := hsc a (List.mem_cons_self a args)
          have hrec := readFields_scalar args ws' rest
            (fun b hb => hsc b (List.mem_cons_of_mem a hb)) (by simpa using hlen)
          simp [readFields, ha, hrec]

theorem writeFlatten_scalar : ∀ (args : List TLArg) (ws : List Nat),
    (∀ a ∈ args, a.is_vector = false) → ws.length = args.length →
    (List.zipWith writeArgWords args (ws.map ArgVal.scalar)).flatten = ws
  | [], ws, _, hlen => by
      have hnil : ws = [] := List.eq_nil_of_length_eq_zero (by simpa using hlen)
      subst hnil
      rfl
  | a :: args, ws, hsc, hlen => by
      cases ws with
      | nil => simp at hlen
      | cons w ws' =>
          have ha : a.is_vector = false := hsc a (List.mem_cons_self a args)
          have hrec := writeFlatten_scalar args ws'
            (fun b hb => hsc b (List.mem_cons_of_mem a hb)) (by simpa using hlen)
          simp [writeArgWords, ha, hrec]

/-! ### Helper lemmas about the argument filter -/

theorem sorted_args_perm (t : TLObject) : List.Perm t.sorted_args t.args := by
  have hcong : t.args.filter (fun a => !(!a.is_flag)) = t.args.filter (fun a => a.is_flag) :=
    List.filter_congr (fun a _ => by simp)
  unfold TLObject.sorted_args
  rw [← hcong]
  exact List.filter_append_perm _ _

/-! ### Concrete schema objects used as witnesses and counterexamples -/

/-- A plain scalar argument named `x`. -/
def argX : TLArg :=
  { name := "x", argType := "int32_t x", is_vector := false, use_vector_id := false,
    is_flag := false, flag_indicator := false, generic_definition := false }

/-- A plain scalar argument named `y`. -/
def argY : TLArg :=
  { name := "y", argType := "int32_t y", is_vector := false, use_vector_id := false,
    is_flag := false, flag_indicator := false, generic_definition := false }

/-- A flagged (optional) scalar argument named `z`. -/
def argZflag : TLArg :=
  { name := "z", argType := "std::optional<int32_t> z", is_vector := false,
    use_vector_id := false, is_flag := true, flag_indicator := false,
    generic_definition := false }

/-- A boxed vector argument (`use_vector_id = true`). -/
def aVecId : TLArg :=
  { name := "xs", argType := "std::vector<int32_t> xs", is_vector := true,
    use_vector_id := true, is_flag := false, flag_indicator := false,
    generic_definition := false }

/-- A bare vector argument (`use_vector_id = false`). -/
def aVecBare : TLArg :=
  { name := "ys", argType := "std::vector<int32_t> ys", is_vector := true,
    use_vector_id := false, is_flag := false, flag_indicator := false,
    generic_definition := false }

/-- A definition with one boxed vector field. -/
def tC1a : TLObject :=
  { name := "v1", namespaceName := "", id := 7, layer := 1, is_function := false,
    result := "X", args := [aVecId] }

/-- A definition with one bare vector field. -/
def tC1b : TLObject :=
  { name := "v2", namespaceName := "", id := 8, layer := 1, is_function := false,
    result := "X", args := [aVecBare] }

/-- A definition with two scalar fields. -/
def tC2obj : TLObject :=
  { name := "p", namespaceName := "", id := 17, layer := 1, is_function := false,
    result := "X", args := [argX, argY] }

/-- A definition with one boxed vector field, for the read path. -/
def tC3obj : TLObject :=
  { name := "r", namespaceName := "", id := 9, layer := 1, is_function := false,
    result := "X", args := [aVecId] }

/-- A definition whose raw argument list has the flagged argument first. -/
def tC5obj : TLObject :=
  { name := "f", namespaceName := "", id := 11, layer := 1, is_function := true,
    result := "X", args := [argZflag, argX] }

/-- A definition in namespace `foo`, layer 1. -/
def tC6obj : TLObject :=
  { name := "a", namespaceName := "foo", id := 1, layer := 1, is_function := true,
    result := "X", args := [] }

/-- A definition named `a` in namespace `foo`, layer 1. -/
def tC7a : TLObject :=
  { name := "a", namespaceName := "foo", id := 2, layer := 1, is_function := true,
    result := "X", args := [] }

/-- A definition named `b` in namespace `foo`, layer 2. -/
def tC7b : TLObject :=
  { name := "b", namespaceName := "foo", id := 3, layer := 2, is_function := true,
    result := "X", args := [] }

/-- A definition with two scalar fields, for the tag asymmetry. -/
def tC10obj : TLObject :=
  { name := "q", namespaceName := "", id := 21, layer := 1, is_function := false,
    result := "X", args := [argX, argY] }

/-! ### The claims -/

/-- C1: for every definition and every vector argument of it, the generated
write routine's output is: the constructor tag, the words of the earlier
fields, then - for the vector field - the reserved boxed-vector tag
`0x1cb5c415` exactly when `use_vector_id` is true, then the element count as
a 4-byte unsigned integer, then each element in order, then the words of the
later fields. -/
theorem c1_vector_write_framing (t : TLObject) (l1 l2 : List TLArg) (a : TLArg)
    (v1 v2 : List ArgVal) (ws : List Nat)
    (hargs : filteredArgs t = l1 ++ a :: l2) (hlen : l1.length = v1.length)
    (hvec : a.is_vector = true) :
    serializeWords t (v1 ++ ArgVal.vec ws :: v2) =
      (t.id % 2 ^ 32) ::
        ((List.zipWith writeArgWords l1 v1).flatten ++
          ((if a.use_vector_id then [vectorTag] else []) ++ (ws.length % 2 ^ 32) :: ws) ++
          (List.zipWith writeArgWords l2 v2).flatten) := by
  have hw : writeArgWords a (ArgVal.vec ws) =
      (if a.use_vector_id then [vectorTag] else []) ++ (ws.length % 2 ^ 32) :: ws := by
    simp [writeArgWords, hvec]
  simp only [serializeWords, hargs]
  rw [List.zipWith_append _ _ _ _ _ hlen, List.zipWith_cons_cons,
    List.flatten_append, List.flatten_cons, hw]
  simp [List.append_assoc]

theorem c1_witness :
    (filteredArgs tC1a = [] ++ aVecId :: [] ∧ ([] : List TLArg).length = ([] : List ArgVal).length ∧
      aVecId.is_vector = true ∧
      serializeWords tC1a [ArgVal.vec [10, 20, 30]] = [7, vectorTag, 3, 10, 20, 30]) ∧
    (filteredArgs tC1b = [] ++ aVecBare :: [] ∧
      aVecBare.is_vector = true ∧
      serializeWords tC1b [ArgVal.vec [10, 20, 30]] = [8, 3, 10, 20, 30]) :=
  ⟨⟨by decide, rfl, by decide,
      (c1_vector_write_framing tC1a [] [] aVecId [] [] [10, 20, 30] (by decide) rfl
        (by decide)).trans (by decide)⟩,
   ⟨by decide, by decide,
      (c1_vector_write_framing tC1b [] [] aVecBare [] [] [10, 20, 30] (by decide) rfl
        (by decide)).trans (by decide)⟩⟩

/-- C2 (counterexample): running the generated read routine directly on the
byte stream produced by the generated write routine does not reproduce the
original field values, because write emits the constructor tag first while
read starts at the first field: on the two-scalar definition `tC2obj` with
field values `[5, 6]`, the read yields `[17, 5]` (tag and first field) with
`[6]` left over. -/
theorem c2_counterexample :
    readFields (filteredArgs tC2obj) (serializeWords tC2obj [ArgVal.scalar 5, ArgVal.scalar 6]) =
        some ([17, 5], [6]) ∧
    readFields (filteredArgs tC2obj) (serializeWords tC2obj [ArgVal.scalar 5, ArgVal.scalar 6]) ≠
        some ([5, 6], []) := by
  decide

/-- C2 (amended): for every definition whose filtered fields are all scalar,
running the generated write routine and then the generated read routine on
the resulting byte stream positioned after the leading 4-byte constructor
tag (which the dispatching caller consumes) yields a value equal to the
original in every field, with nothing left over. -/
theorem c2_scalar_roundtrip (t : TLObject) (ws : List Nat)
    (hscalar : ∀ a ∈ filteredArgs t, a.is_vector = false)
    (hlen : ws.length = (filteredArgs t).length) :
    readFields (filteredArgs t) ((serializeWords t (ws.map ArgVal.scalar)).tail) =
      some (ws, []) := by
  have hflat : (List.zipWith writeArgWords (filteredArgs t) (ws.map ArgVal.scalar)).flatten = ws :=
    writeFlatten_scalar _ _ hscalar hlen
  have htail : (serializeWords t (ws.map ArgVal.scalar)).tail = ws := by
    simp [serializeWords, hflat]
  rw [htail]
  have h := readFields_scalar (filteredArgs t) ws [] hscalar hlen
  simpa using h

theorem c2_witness :
    (∀ a ∈ filteredArgs tC2obj, a.is_vector = false) ∧
    ([5, 6] : List Nat).length = (filteredArgs tC2obj).length ∧
    readFields (filteredArgs tC2obj) ((serializeWords tC2obj ([5, 6].map ArgVal.scalar)).tail) =
      some ([5, 6], []) :=
  ⟨by decide, by decide, c2_scalar_roundtrip tC2obj [5, 6] (by decide) (by decide)⟩

/-- C3: the claim says the generated read routine reads exactly
element-count elements of a vector field.  The code does not: on the
definition `tC3obj` with one boxed vector field, the emitted read body
declares `_len, _i`, discards the boxed-vector tag into `_i`, reads the
count into `_len`, and then emits the loop header comparing the undeclared
name `i` - not the loop counter `_i` - against `_len`, around a body that is
only a TODO comment; consequently the read semantics cannot consume the
three elements of the stream `[0x1cb5c415, 3, 10, 20, 30]`. -/
theorem c3_read_vector_defect :
    readBodyLines tC3obj =
      ["void read(Stream &stream) override \x7b",
       "uint32_t _len, _i;",
       "stream >> _i;",
       "stream >> _len;",
       "for (_i = 0; i != _len; ++_i) \x7b",
       "/* TODO Actually read the TLObject */",
       "\x7d",
       "\x7d"] ∧
    readFields (filteredArgs tC3obj) [vectorTag, 3, 10, 20, 30] = none := by
  decide

/-- C4: the generated class fields are the definition's (upstream-sorted)
argument list with every flag-indicator and every generic-placeholder
argument removed: the field list is a sublist of the sorted arguments (so
surviving arguments keep their relative order), membership is exactly
non-indicator non-generic membership, and as a multiset the fields equal the
same filter of the raw argument list. -/
theorem c4_fields_filter (t : TLObject) :
    List.Sublist (filteredArgs t) t.sorted_args ∧
    (∀ a : TLArg, a ∈ filteredArgs t ↔
      a ∈ t.sorted_args ∧ a.flag_indicator = false ∧ a.generic_definition = false) ∧
    List.Perm (filteredArgs t)
      (t.args.filter (fun a => !a.flag_indicator && !a.generic_definition)) := by
  refine ⟨List.filter_sublist _, ?_, (sorted_args_perm t).filter _⟩
  intro a
  simp [filteredArgs, List.mem_filter, and_assoc]

/-- C5: for a definition with at least one flagged argument, provided the
upstream sorted argument order places every flagged argument after every
non-flagged one, the generated constructor gives exactly the flagged fields
the implicit absent default, and every flagged parameter appears after every
non-flagged parameter. -/
theorem c5_ctor_flags_defaulted_last (t : TLObject)
    (hex : ∃ a ∈ t.args, a.is_flag = true)
    (hord : FlagsLast t.sorted_args) :
    (∀ p ∈ ctorParams t, p.2 = p.1.is_flag) ∧
    (ctorParams t).Pairwise (fun p q => p.1.is_flag = true → q.1.is_flag = true) := by
  constructor
  · intro p hp
    rcases List.mem_map.mp hp with ⟨a, _, rfl⟩
    rfl
  · have hfilter : FlagsLast (filteredArgs t) :=
      List.Pairwise.sublist (List.filter_sublist _) hord
    exact List.pairwise_map.mpr hfilter

theorem c5_witness :
    (∃ a ∈ tC5obj.args, a.is_flag = true) ∧ FlagsLast tC5obj.sorted_args ∧
    ((∀ p ∈ ctorParams tC5obj, p.2 = p.1.is_flag) ∧
      (ctorParams tC5obj).Pairwise (fun p q => p.1.is_flag = true → q.1.is_flag = true)) :=
  ⟨by decide, by decide, c5_ctor_flags_defaulted_last tC5obj (by decide) (by decide)⟩

/-- C6: the claim says every opened layer and namespace block is closed
exactly once.  The sequencer does not close them: on the single definition
`tC6obj` (namespace `foo`, layer 1) it opens a layer block and a namespace
block and closes neither (the loop clears `ns` before the only close test,
and no layer block is ever closed); even counting the surrounding
`namespace TL` open and the two trailing closes of `_generate_source`, the
whole output has 4 opens and 2 closes. -/
theorem c6_sequencer_unbalanced :
    seqGroups 0 [("foo", [tC6obj])] =
      [Event.openLayer 1, Event.openNs "foo", Event.decl tC6obj] ∧
    openCount (seqGroups 0 [("foo", [tC6obj])]) = 2 ∧
    closeCount (seqGroups 0 [("foo", [tC6obj])]) = 0 ∧
    openCount (generateSourceEvents [("foo", [tC6obj])]) = 4 ∧
    closeCount (generateSourceEvents [("foo", [tC6obj])]) = 2 := by
  decide

/-- C7: the claim says two definitions sharing a namespace but with
different layers are placed in separate layer blocks with the namespace
block reopened inside the second one.  The code opens the second layer block
without closing anything and never reopens the namespace: on `tC7a`
(layer 1) and `tC7b` (layer 2), both in namespace `foo`, the event stream
opens `foo` once, before the second layer block, and contains no close. -/
theorem c7_namespace_not_reopened :
    seqGroups 0 [("foo", [tC7a, tC7b])] =
      [Event.openLayer 1, Event.openNs "foo", Event.decl tC7a,
       Event.openLayer 2, Event.decl tC7b] ∧
    nsOpenCount "foo" (seqGroups 0 [("foo", [tC7a, tC7b])]) = 1 ∧
    closeCount (seqGroups 0 [("foo", [tC7a, tC7b])]) = 0 := by
  decide

/-- C8: each output artifact contains exactly one abstract marker per
distinct result type observed in its own partition (functions for the
functions file, non-functions for the types file), emitted sorted in
lexicographic order, without duplicates; the two collections never mix. -/
theorem c8_abstracts_sorted_distinct (ts : List TLObject) :
    KeySorted (fun s => s) (emittedAbstracts (function_abstracts ts)) ∧
    (emittedAbstracts (function_abstracts ts)).Nodup ∧
    (∀ s : String, s ∈ emittedAbstracts (function_abstracts ts) ↔
      ∃ t ∈ ts, t.is_function = true ∧ t.result = s) ∧
    KeySorted (fun s => s) (emittedAbstracts (object_abstracts ts)) ∧
    (emittedAbstracts (object_abstracts ts)).Nodup ∧
    (∀ s : String, s ∈ emittedAbstracts (object_abstracts ts) ↔
      ∃ t ∈ ts, t.is_function = false ∧ t.result = s) := by
  refine ⟨sortByKey_sorted _ _, ?_, ?_, sortByKey_sorted _ _, ?_, ?_⟩
  · exact ((sortByKey_perm _ _).nodup_iff).mpr (List.nodup_dedup _)
  · intro s
    simp only [emittedAbstracts]
    rw [(sortByKey_perm _ _).mem_iff]
    simp [function_abstracts, List.mem_filter, and_assoc]
  · exact ((sortByKey_perm _ _).nodup_iff).mpr (List.nodup_dedup _)
  · intro s
    simp only [emittedAbstracts]
    rw [(sortByKey_perm _ _).mem_iff]
    simp [object_abstracts, List.mem_filter, and_assoc]

/-- C9: generation is deterministic.  The emission order is a function of
the parsed input alone: the definitions emitted by the sequencer are exactly
the namespace groups in discovery order, each sorted by name (and so sorted
within each namespace), and the abstract markers of both artifacts are
emitted sorted; no ordering depends on run-to-run nondeterminism, every
stage being a pure function of its input. -/
theorem c9_deterministic_ordering (groups : List (String × List TLObject))
    (ts : List TLObject) :
    declsOf (seqGroups 0 groups) = groups.flatMap (fun g => sortByName g.2) ∧
    (∀ g ∈ groups, KeySorted (fun t => t.name) (sortByName g.2)) ∧
    KeySorted (fun s => s) (emittedAbstracts (function_abstracts ts)) ∧
    KeySorted (fun s => s) (emittedAbstracts (object_abstracts ts)) :=
  ⟨declsOf_seqGroups groups 0, fun _ _ => sortByKey_sorted _ _,
    sortByKey_sorted _ _, sortByKey_sorted _ _⟩

/-- C10: the generated write routine emits the 4-byte constructor tag before
any field, but the generated read routine never consumes a constructor tag:
on a definition whose fields are all scalar it consumes exactly one word per
field starting at the first field - whatever those words are, tag or not -
so the caller must have consumed (dispatched on) the tag before invoking
read. -/
theorem c10_tag_asymmetry (t : TLObject) (vals : List ArgVal) (ws rest : List Nat)
    (hscalar : ∀ a ∈ filteredArgs t, a.is_vector = false)
    (hlen : ws.length = (filteredArgs t).length) :
    (serializeWords t vals).head? = some (t.id % 2 ^ 32) ∧
    readFields (filteredArgs t) (ws ++ rest) = some (ws, rest) :=
  ⟨rfl, readFields_scalar _ _ _ hscalar hlen⟩

theorem c10_witness :
    (∀ a ∈ filteredArgs tC10obj, a.is_vector = false) ∧
    ([99, 98] : List Nat).length = (filteredArgs tC10obj).length ∧
    ((serializeWords tC10obj [ArgVal.scalar 1, ArgVal.scalar 2]).head? = some (21 % 2 ^ 32) ∧
      readFields (filteredArgs tC10obj) ([99, 98] ++ [7]) = some ([99, 98], [7])) :=
  ⟨by decide, by decide,
    c10_tag_asymmetry tC10obj [ArgVal.scalar 1, ArgVal.scalar 2] [99, 98] [7]
      (by decide) (by decide)⟩
